import Mathlib

/-!
Verification development for the LAPPLAC example script
src/examples/example_FreeSpacePropagation_FocusingGaussian.py.

The script is a straight-line driver: it sets up laser and grid parameters,
builds a focusing Gaussian input field, calls an external propagation routine
once, and compares the result with analytic Gaussian-beam theory.  The
definitions below are a shallow embedding of the quantities the script
computes itself; functions that live only in the external module
beamPropagator_source are modelled from the spec and marked as such.
-/

set_option maxRecDepth 10000

namespace LAPPLAC

/-- Modelled from the spec: the unit constant um (one micrometre, in metres)
imported from the external module beamPropagator_source, absent from src. -/
noncomputable def um : ℝ := 1 / 1000000

/-- Wavelength in metres, laserParameters entry lambda0 (line 31). -/
noncomputable def lambda0 : ℝ := 0.800 * um

/-- Pulse energy, laserParameters entry E0 (line 33). -/
noncomputable def E0 : ℝ := 1.0

/-- Spatial offset in x, laserParameters entry xOffset (line 34). -/
noncomputable def xOffset : ℝ := 0.0 * um

/-- Spatial offset in y, laserParameters entry yOffset (line 35). -/
noncomputable def yOffset : ℝ := 0.0 * um

/-- Final waist size, laserParameters entry w0 (line 38). -/
noncomputable def w0 : ℝ := 30.0 * um

/-- Modelled from the spec: get_zr from beamPropagator_source (absent from
src) returns the Rayleigh range pi * w0^2 / lambda0 of the gaussian beam;
the script docstring calls it the correct rayleigh range (about 3.5 mm) and
line 83 recomputes exactly this formula. -/
noncomputable def get_zr : ℝ := Real.pi * w0 ^ 2 / lambda0

/-- Rayleigh range, line 45.  Lines 83 and 191 recompute the same value. -/
noncomputable def zR : ℝ := get_zr

/-- Line 46: zMax = 2.0 * 3.0 * zR. -/
noncomputable def zMax : ℝ := 2.0 * 3.0 * zR

/-- Line 48: z point of focus.  Line 192 recomputes the same value. -/
noncomputable def zf : ℝ := 3.0 * zR

/-- Line 50: start position relative to the focal plane. -/
noncomputable def z0 : ℝ := -zf

/-- Line 51: radius of curvature of the wavefront at z0. -/
noncomputable def Rz : ℝ := z0 * (1.0 + (zR / z0) ^ 2)

/-- Line 54: beam waist at z0. -/
noncomputable def w_z0 : ℝ := w0 * Real.sqrt (1.0 + (z0 / zR) ^ 2)

/-- Line 60: number of pixels. -/
def n_pts : ℕ := 512

/-- Line 61: resolution in the image plane (metres). -/
noncomputable def res : ℝ := 1 * um

/-- Line 62: number of points in z. -/
def nz : ℕ := 512

/-- Line 64: mid = int(n_pts / 2). -/
def mid : ℕ := n_pts / 2

/-- The i-th point of np.linspace(a, b, n): both endpoints included, spacing
(b - a) / (n - 1). -/
noncomputable def linspace (a b : ℝ) (n i : ℕ) : ℝ :=
  a + i * ((b - a) / ((n : ℝ) - 1))

/-- Line 68: the transverse grid. -/
noncomputable def x (i : ℕ) : ℝ :=
  linspace (-(res * (n_pts : ℝ) / 2)) (res * (n_pts : ℝ) / 2) n_pts i

/-- Line 71: the longitudinal grid. -/
noncomputable def z (i : ℕ) : ℝ := linspace 0 zMax nz i

/-- Modelled from the spec: make_inputBeam from beamPropagator_source (absent
from src) returns the real gaussian amplitude of the beam on the grid, for
shape gaussian with n = 2, waist w_z0, offsets xOffset and yOffset and peak
amplitude E0 (line 75). -/
noncomputable def make_inputBeam (X Y : ℝ) : ℝ :=
  E0 * Real.exp (-(((X - xOffset) ^ 2 + (Y - yOffset) ^ 2) / w_z0 ^ 2))

/-- Line 86: wavenumber. -/
noncomputable def k : ℝ := 2.0 * Real.pi / lambda0

/-- Line 87: squared transverse radius. -/
noncomputable def R_sq (X Y : ℝ) : ℝ := X ^ 2 + Y ^ 2

/-- Line 88: constant Gouy phase. -/
noncomputable def guoy : ℝ := Real.arctan (z0 / zR)

/-- Line 89: the focusing phase profile. -/
noncomputable def inputPhase (X Y : ℝ) : ℝ := k * R_sq X Y / (2.0 * Rz) - guoy

/-- Line 91: the complex input field handed to the propagator. -/
noncomputable def inputBeam (X Y : ℝ) : ℂ :=
  (make_inputBeam X Y : ℂ) * Complex.exp (-Complex.I * (inputPhase X Y : ℂ))

/-- Comparison definition written from the claim: the same field with the
constant Gouy term omitted from the phase. -/
noncomputable def inputBeam_noGuoy (X Y : ℝ) : ℂ :=
  (make_inputBeam X Y : ℂ) *
    Complex.exp (-Complex.I * ((k * R_sq X Y / (2.0 * Rz) : ℝ) : ℂ))

/-- np.zeros((n1, n2, n3)) as a function on indices (line 119). -/
noncomputable def np_zeros3 (n1 n2 n3 : ℕ) : Fin n1 → Fin n2 → Fin n3 → ℝ :=
  fun _ _ _ => 0

/-- np.ones((n1, n2, n3)) as a function on indices (line 133). -/
noncomputable def np_ones3 (n1 n2 n3 : ℕ) : Fin n1 → Fin n2 → Fin n3 → ℝ :=
  fun _ _ _ => 1

/-- Line 119: the plasma density array, np.zeros((n_pts, n_pts, nz)). -/
noncomputable def ne : Fin n_pts → Fin n_pts → Fin nz → ℝ :=
  np_zeros3 n_pts n_pts nz

/-- Line 131: background refractive index. -/
noncomputable def eta0 : ℝ := 1.0

/-- Line 133: eta = eta0 * np.ones((n_pts, n_pts, z.size)), with z.size = nz. -/
noncomputable def eta : Fin n_pts → Fin n_pts → Fin nz → ℝ :=
  fun i j l => eta0 * np_ones3 n_pts n_pts nz i j l

/-- Line 134: wavenumber used by the propagator. -/
noncomputable def k0 : ℝ := 2.0 * Real.pi / lambda0

/-- Lines 190-194: the analytic waist curve, with zc = z - zf and w0
unchanged by the line 190 multiplication by 1.00. -/
noncomputable def w (t : ℝ) : ℝ := w0 * Real.sqrt (1.0 + ((t - zf) / zR) ^ 2)

/-- Elementwise intensity np.abs(f) ** 2 of a complex column (line 183). -/
noncomputable def intensityList (v : List ℂ) : List ℝ :=
  v.map fun c => Complex.abs c ^ 2

/-- np.max of a nonempty array (line 184); 0 for the empty list. -/
noncomputable def np_max (l : List ℝ) : ℝ :=
  match l with
  | [] => 0
  | a :: r => r.foldl max a

/-- Masked assignment f[f <= c] = 0.0 (line 185). -/
noncomputable def maskLe (c : ℝ) (f : List ℝ) : List ℝ :=
  f.map fun v => if v ≤ c then 0 else v

/-- Masked assignment f[f > c] = 1.0 (line 186). -/
noncomputable def maskGt (c : ℝ) (f : List ℝ) : List ℝ :=
  f.map fun v => if c < v then 1 else v

/-- Lines 184-186: one column of thresh, with top = np.max f computed first
and the two masked assignments applied in the order of the source. -/
noncomputable def threshColumn (f : List ℝ) : List ℝ :=
  maskGt (np_max f * Real.exp (-2)) (maskLe (np_max f * Real.exp (-2)) f)

/-- Comparison definition written from the claim: the same two masked
assignments applied in the swapped order. -/
noncomputable def threshColumnSwapped (f : List ℝ) : List ℝ :=
  maskLe (np_max f * Real.exp (-2)) (maskGt (np_max f * Real.exp (-2)) f)

/-- Tail worker for np.argmin: scans the list keeping the first index at
which the running minimum is attained. -/
def argminAux {α : Type} [LinearOrder α] : List α → ℕ → α → ℕ → ℕ
  | [], _, _, best => best
  | v :: rest, i, bv, best =>
    if v < bv then argminAux rest (i + 1) v i else argminAux rest (i + 1) bv best

/-- np.argmin: index of the first occurrence of the minimum (0 on the empty
list, which numpy rejects). -/
def npArgmin {α : Type} [LinearOrder α] : List α → ℕ
  | [] => 0
  | v :: rest => argminAux rest 1 v 0

/-- Line 224: the list (z - zf) ** 2 whose argmin picks the focal slice. -/
noncomputable def focalDistList : List ℝ :=
  (List.range nz).map fun i => (z i - zf) ^ 2

/-- Line 224: idx = np.argmin((z - zf) ** 2). -/
noncomputable def focalIdx : ℕ := npArgmin focalDistList

/-- Integer-scaled version of focalDistList: (z i - zf) ^ 2 is the positive
constant (3 * zR / 511) ^ 2 times (2 * i - 511) ^ 2. -/
def intDistList : List ℤ :=
  (List.range nz).map fun i : ℕ => (2 * (i : ℤ) - 511) ^ 2

/-- Modelled from the spec: shadow from beamPropagator_source (absent from
src) returns the field modulus; line 101 plots shadow(inputBeam) ** 2 under
the title of the squared field modulus. -/
noncomputable def shadow (c : ℂ) : ℝ := Complex.abs c

/-- The arrays the post-propagation analysis (lines 180-228) reads or
writes, threaded as explicit state.  field is the array returned by
propagate_in_z at line 143. -/
structure AnalysisState where
  field : ℕ → ℕ → ℕ → ℂ
  thresh : ℕ → ℕ → ℝ
  E_full : ℕ → ℕ → ℝ
  focal_slice : ℕ → ℕ → ℂ
  Ifocus : ℕ → ℕ → ℝ

/-- Lines 182-183: f = Field[:, mid, zi].copy() followed by f = np.abs(f)**2.
The copy means the masked assignments below act on a fresh array. -/
noncomputable def midColumn (field : ℕ → ℕ → ℕ → ℂ) (zi : ℕ) : List ℝ :=
  intensityList ((List.range n_pts).map fun i => field i mid zi)

/-- One iteration of the loop at lines 181-187: writes column zi of thresh
and touches nothing else. -/
noncomputable def threshStep (st : AnalysisState) (zi : ℕ) : AnalysisState :=
  { st with
    thresh := fun i zj =>
      if zj = zi then (threshColumn (midColumn st.field zi)).getD i 0
      else st.thresh i zj }

/-- The whole thresholding loop, lines 181-187. -/
noncomputable def threshLoop (st : AnalysisState) : AnalysisState :=
  (List.range nz).foldl threshStep st

/-- Line 211: E_full = np.real(np.exp(+1j * k0 * z) * Field[:, mid, :]),
with the millimetre factors of Zd cancelling. -/
noncomputable def oscStep (st : AnalysisState) : AnalysisState :=
  { st with
    E_full := fun i zi =>
      (Complex.exp (Complex.I * (k0 : ℂ) * (z zi : ℂ)) * st.field i mid zi).re }

/-- Line 225: focal_slice = Field[:, :, idx].copy(). -/
noncomputable def focalStep (st : AnalysisState) : AnalysisState :=
  { st with focal_slice := fun i j => st.field i j focalIdx }

/-- Line 228: the intensity I = shadow(focal_slice). -/
noncomputable def intensityStep (st : AnalysisState) : AnalysisState :=
  { st with Ifocus := fun i j => shadow (st.focal_slice i j) }

/-- The array-touching statements that follow the propagation call, in
source order. -/
noncomputable def runAnalysis (st : AnalysisState) : AnalysisState :=
  intensityStep (focalStep (oscStep (threshLoop st)))

/-- The three conceptual phases of the script. -/
inductive Phase where
  | setup : Phase
  | propagation : Phase
  | analysis : Phase
deriving DecidableEq

/-- Position of a phase in the intended order. -/
def phaseIdx : Phase → ℕ
  | Phase.setup => 0
  | Phase.propagation => 1
  | Phase.analysis => 2

/-- One top-level statement of the script: its source line, the phase it
belongs to, and whether it invokes the external propagation engine (the
call that produces the propagated Field). -/
structure ScriptStmt where
  line : ℕ
  phase : Phase
  callsEngine : Bool
deriving DecidableEq

/-- Setup-phase statement. -/
def stS (l : ℕ) : ScriptStmt := ⟨l, Phase.setup, false⟩

/-- The propagation call. -/
def stP (l : ℕ) : ScriptStmt := ⟨l, Phase.propagation, true⟩

/-- Analysis-phase statement. -/
def stA (l : ℕ) : ScriptStmt := ⟨l, Phase.analysis, false⟩

/-- The top-level statements of the script in source order, by line number.
Lines 19-136 are parameter, grid and input-field setup (including the
input-beam check figure and the setup_propagate preparation call); line 143
is the single propagate_in_z call producing Field; everything from line 149
on reads Field for comparison and plotting. -/
def scriptStmts : List ScriptStmt :=
  [stS 19, stS 20, stS 22, stS 23, stS 24, stS 30, stS 45, stS 46, stS 48,
   stS 50, stS 51, stS 53, stS 54, stS 56, stS 60, stS 61, stS 62, stS 64,
   stS 68, stS 69, stS 70, stS 71, stS 75, stS 80, stS 81, stS 83, stS 86,
   stS 87, stS 88, stS 89, stS 91, stS 95, stS 96, stS 98, stS 100, stS 101,
   stS 102, stS 105, stS 106, stS 107, stS 108, stS 111, stS 112, stS 119,
   stS 129, stS 131, stS 133, stS 134, stS 136,
   stP 143,
   stA 149, stA 155, stA 157, stA 159, stA 160, stA 162, stA 163, stA 169,
   stA 170, stA 171, stA 173, stA 174, stA 175, stA 176, stA 180, stA 181,
   stA 190, stA 191, stA 192, stA 193, stA 194, stA 195, stA 196, stA 197,
   stA 199, stA 200, stA 201, stA 202, stA 209, stA 211, stA 212, stA 214,
   stA 215, stA 216, stA 224, stA 225, stA 228, stA 229, stA 231, stA 233,
   stA 235, stA 237, stA 238, stA 239, stA 241, stA 242, stA 246, stA 247,
   stA 248, stA 249, stA 250]

/-- Whether consecutive statements of a list are ordered by f. -/
def orderedBy (f : ScriptStmt → ScriptStmt → Bool) : List ScriptStmt → Bool
  | [] => true
  | [_] => true
  | a :: b :: r => f a b && orderedBy f (b :: r)

/-- Python statements as the script uses them: either a plain statement or
one wrapped in an exception handler. -/
inductive PyStmt (S E : Type) where
  | plain (f : S → Except E S) : PyStmt S E
  | withHandler (f : S → Except E S) (h : E → S → Except E S) : PyStmt S E

/-- Whether a statement carries no handler. -/
def isPlainStmt {S E : Type} : PyStmt S E → Bool
  | PyStmt.plain _ => true
  | PyStmt.withHandler _ _ => false

/-- Run one statement: a handler, when present, catches the failure. -/
def runStmt {S E : Type} : PyStmt S E → S → Except E S
  | PyStmt.plain f, s => f s
  | PyStmt.withHandler f h, s =>
    match f s with
    | Except.ok s2 => Except.ok s2
    | Except.error e => h e s

/-- Run a list of statements in order; a failure stops execution. -/
def runScript {S E : Type} : List (PyStmt S E) → S → Except E S
  | [], s => Except.ok s
  | st :: rest, s =>
    match runStmt st s with
    | Except.ok s2 => runScript rest s2
    | Except.error e => Except.error e

/-- Wrap a list of operations as plain statements. -/
def scriptOf {S E : Type} (ops : List (S → Except E S)) : List (PyStmt S E) :=
  ops.map PyStmt.plain

/-- Number of top-level statements of the script. -/
def numStmts : ℕ := scriptStmts.length

/-- The script as a program: its statements are the plain sequencing of
whatever operations the numbered source statements denote; no statement of
the file installs a handler. -/
def scriptProgram {S E : Type} (ops : ℕ → S → Except E S) : List (PyStmt S E) :=
  scriptOf ((List.range numStmts).map ops)

/-! Helper lemmas about the constants. -/

theorem um_pos : 0 < um := by norm_num [um]

theorem lambda0_pos : 0 < lambda0 := by norm_num [lambda0, um]

theorem w0_pos : 0 < w0 := by norm_num [w0, um]

theorem zR_pos : 0 < zR := by
  unfold zR get_zr
  exact div_pos (mul_pos Real.pi_pos (pow_pos w0_pos 2)) lambda0_pos

theorem zf_eq : zf = 3 * zR := by norm_num [zf]

theorem Rz_eq : Rz = -(10 / 3) * zR := by
  have hzR : zR ≠ 0 := zR_pos.ne'
  unfold Rz z0 zf
  field_simp
  ring

theorem x_eq (i : ℕ) : x i = ((i : ℝ) * 2 - 511) * ((256 / 511) * um) := by
  unfold x linspace n_pts res
  push_cast
  ring

theorem z_eq (i : ℕ) : z i = (i : ℝ) * (6 * zR) / 511 := by
  unfold z linspace nz zMax
  push_cast
  ring

/-! Helper lemmas for the thresholding loop. -/

theorem le_foldl_max (l : List ℝ) : ∀ a : ℝ, a ≤ l.foldl max a := by
  induction l with
  | nil => intro a; simp
  | cons b r ih =>
    intro a
    calc a ≤ max a b := le_max_left a b
    _ ≤ (b :: r).foldl max a := by simpa using ih (max a b)

theorem np_max_intensity_nonneg (col : List ℂ) :
    0 ≤ np_max (intensityList col) := by
  cases col with
  | nil => simp [intensityList, np_max]
  | cons c r =>
    have h1 : (0 : ℝ) ≤ Complex.abs c ^ 2 := by positivity
    have h2 := le_foldl_max (r.map fun d => Complex.abs d ^ 2) (Complex.abs c ^ 2)
    simp only [intensityList, List.map, np_max]
    exact le_trans h1 h2

theorem mask_indicator (c v : ℝ) (hc : 0 ≤ c) :
    (if c < (if v ≤ c then (0 : ℝ) else v) then (1 : ℝ)
     else if v ≤ c then (0 : ℝ) else v) = if c < v then 1 else 0 := by
  by_cases hv : v ≤ c
  · simp [hv, not_lt.mpr hc, not_lt.mpr hv]
  · simp [hv, lt_of_not_le hv]

theorem threshColumn_eq (col : List ℂ) :
    threshColumn (intensityList col) =
      (intensityList col).map
        (fun v => if np_max (intensityList col) * Real.exp (-2) < v then 1 else 0) := by
  have hc : 0 ≤ np_max (intensityList col) * Real.exp (-2) :=
    mul_nonneg (np_max_intensity_nonneg col) (Real.exp_pos _).le
  unfold threshColumn maskGt maskLe
  rw [List.map_map]
  apply List.map_congr_left
  intro v _
  exact mask_indicator _ v hc

theorem indicator_getD (c : ℝ) (l : List ℝ) :
    ∀ i : ℕ, (l.map fun v => if c < v then (1 : ℝ) else 0).getD i 0 = 0 ∨
      (l.map fun v => if c < v then (1 : ℝ) else 0).getD i 0 = 1 := by
  induction l with
  | nil => intro i; left; simp
  | cons a r ih =>
    intro i
    cases i with
    | zero =>
      by_cases h : c < a
      · right; simp [h]
      · left; simp [h]
    | succ j => simpa using ih j

/-! Helper lemmas for the argmin at line 224. -/

theorem argminAux_map {α β : Type} [LinearOrder α] [LinearOrder β]
    (g : α → β) (hg : StrictMono g) :
    ∀ (l : List α) (i : ℕ) (bv : α) (best : ℕ),
      argminAux (l.map g) i (g bv) best = argminAux l i bv best := by
  intro l
  induction l with
  | nil => intro i bv best; rfl
  | cons v r ih =>
    intro i bv best
    simp only [List.map, argminAux, hg.lt_iff_lt]
    by_cases h : v < bv
    · simp [h, ih]
    · simp [h, ih]

theorem npArgmin_map {α β : Type} [LinearOrder α] [LinearOrder β]
    (g : α → β) (hg : StrictMono g) (l : List α) :
    npArgmin (l.map g) = npArgmin l := by
  cases l with
  | nil => rfl
  | cons v r => exact argminAux_map g hg r 1 v 0

theorem focalDistList_eq :
    focalDistList = intDistList.map fun m : ℤ => (3 * zR / 511) ^ 2 * (m : ℝ) := by
  unfold focalDistList intDistList
  rw [List.map_map]
  apply List.map_congr_left
  intro i _
  show (z i - zf) ^ 2 = (3 * zR / 511) ^ 2 * ((2 * (i : ℤ) - 511) ^ 2 : ℤ)
  rw [z_eq, zf_eq]
  push_cast
  ring

theorem intDistList_argmin : npArgmin intDistList = 255 := by decide

theorem focalIdx_eq : focalIdx = 255 := by
  have hg : StrictMono fun m : ℤ => (3 * zR / 511) ^ 2 * (m : ℝ) := by
    intro a b hab
    have hc : (0 : ℝ) < (3 * zR / 511) ^ 2 := by
      have := zR_pos
      positivity
    exact mul_lt_mul_of_pos_left (by exact_mod_cast hab) hc
  unfold focalIdx
  rw [focalDistList_eq, npArgmin_map _ hg, intDistList_argmin]

/-! Helper lemmas for the analytic waist curve. -/

theorem w_formula (t : ℝ) : w t = w0 * Real.sqrt (1 + ((t - 3 * zR) / zR) ^ 2) := by
  rw [w, zf_eq]
  norm_num

theorem w0_le_w (t : ℝ) : w0 ≤ w t := by
  rw [w_formula]
  have h1 : 1 ≤ Real.sqrt (1 + ((t - 3 * zR) / zR) ^ 2) := by
    have h2 := Real.sqrt_le_sqrt
      (show (1 : ℝ) ≤ 1 + ((t - 3 * zR) / zR) ^ 2 by
        nlinarith [sq_nonneg ((t - 3 * zR) / zR)])
    rwa [Real.sqrt_one] at h2
  nlinarith [w0_pos]

theorem w_lt_w {s t : ℝ} (h : (s - zf) ^ 2 < (t - zf) ^ 2) : w s < w t := by
  have hz2 : (0 : ℝ) < zR ^ 2 := pow_pos zR_pos 2
  have hi : (0 : ℝ) < (zR ^ 2)⁻¹ := inv_pos.mpr hz2
  unfold w
  apply mul_lt_mul_of_pos_left _ w0_pos
  apply Real.sqrt_lt_sqrt (by positivity)
  rw [div_pow, div_pow, div_eq_mul_inv, div_eq_mul_inv]
  have := mul_lt_mul_of_pos_right h hi
  linarith

theorem w_eq_iff (t : ℝ) : w t = w0 ↔ t = 3 * zR := by
  constructor
  · intro h
    rw [w] at h
    have h2 : Real.sqrt (1.0 + ((t - zf) / zR) ^ 2) = 1 := by
      have := mul_left_cancel₀ w0_pos.ne' (h.trans (mul_one w0).symm)
      exact this
    rw [Real.sqrt_eq_one] at h2
    have h3 : ((t - zf) / zR) ^ 2 = 0 := by nlinarith
    have h4 : (t - zf) / zR = 0 := sq_eq_zero_iff.mp h3
    have h5 : t - zf = 0 := by
      rcases div_eq_zero_iff.mp h4 with h5 | h5
      · exact h5
      · exact absurd h5 zR_pos.ne'
    rw [← zf_eq]
    linarith
  · intro h
    rw [w, h, ← zf_eq]
    norm_num

/-! Helper lemmas about the unit-modulus phase factor. -/

theorem abs_phase_factor (r : ℝ) :
    Complex.abs (Complex.exp (-Complex.I * (r : ℂ))) = 1 := by
  rw [Complex.abs_exp]
  have : (-Complex.I * (r : ℂ)).re = 0 := by
    simp [Complex.mul_re]
  rw [this, Real.exp_zero]

theorem abs_inputBeam (X Y : ℝ) :
    Complex.abs (inputBeam X Y) = |make_inputBeam X Y| := by
  rw [inputBeam, map_mul, abs_phase_factor, Complex.abs_ofReal, mul_one]

theorem abs_inputBeam_noGuoy (X Y : ℝ) :
    Complex.abs (inputBeam_noGuoy X Y) = |make_inputBeam X Y| := by
  rw [inputBeam_noGuoy, map_mul, abs_phase_factor, Complex.abs_ofReal, mul_one]

/-! Bounds on the exponential threshold factor. -/

theorem exp_two_lt_nine : Real.exp 2 < 9 := by
  have h : Real.exp 2 = Real.exp 1 * Real.exp 1 := by
    rw [← Real.exp_add]; norm_num
  nlinarith [Real.exp_one_lt_d9, Real.exp_pos 1]

theorem one_le_nine_exp_neg_two : 1 ≤ 9 * Real.exp (-2) := by
  rw [Real.exp_neg]
  rw [show (9 : ℝ) * (Real.exp 2)⁻¹ = 9 / Real.exp 2 by ring]
  rw [le_div_iff₀ (Real.exp_pos 2)]
  linarith [exp_two_lt_nine]

theorem nine_exp_neg_two_lt_nine : 9 * Real.exp (-2) < 9 := by
  have h : Real.exp (-2) < 1 := Real.exp_lt_one_iff.mpr (by norm_num)
  nlinarith

/-! The claims. -/

/-- C1: the initial complex field equals the real amplitude returned by
make_inputBeam multiplied pointwise by exp(-i (k (X^2+Y^2)/(2 Rz) - guoy)),
with k = 2 pi / lambda0, guoy = arctan(z0/zR) and Rz = z0 (1 + (zR/z0)^2);
for the script parameters z0 = -3 zR with zR > 0, so Rz is strictly
negative and the quadratic phase is that of a converging beam. -/
theorem C1_focusing_phase :
    (∀ X Y : ℝ, inputBeam X Y =
      (make_inputBeam X Y : ℂ) *
        Complex.exp (-Complex.I *
          ((k : ℂ) * ((X : ℂ) ^ 2 + (Y : ℂ) ^ 2) / (2 * (Rz : ℂ)) - (guoy : ℂ))))
    ∧ k = 2 * Real.pi / lambda0
    ∧ guoy = Real.arctan (z0 / zR)
    ∧ Rz = z0 * (1 + (zR / z0) ^ 2)
    ∧ z0 = -(3 * zR)
    ∧ 0 < zR
    ∧ Rz < 0 := by
  refine ⟨?_, ?_, rfl, ?_, ?_, zR_pos, ?_⟩
  · intro X Y
    have hph : ((inputPhase X Y : ℝ) : ℂ) =
        (k : ℂ) * ((X : ℂ) ^ 2 + (Y : ℂ) ^ 2) / (2 * (Rz : ℂ)) - (guoy : ℂ) := by
      simp only [inputPhase, R_sq]
      push_cast
      norm_num
    rw [inputBeam, hph]
  · norm_num [k]
  · norm_num [Rz]
  · norm_num [z0, zf]
  · rw [Rz_eq]
    nlinarith [zR_pos]

/-- C2: the propagation is in vacuum: the plasma density ne is identically
zero and the refractive index eta equals eta0 * 1 = 1 at every point of the
(n_pts, n_pts, nz) grid. -/
theorem C2_vacuum :
    ∀ (i j : Fin n_pts) (l : Fin nz), ne i j l = 0 ∧ eta i j l = 1 := by
  intro i j l
  exact ⟨rfl, by norm_num [eta, eta0, np_ones3]⟩

/-- C3: the analytic waist curve satisfies w t = w0 sqrt(1 + ((t - 3 zR)/zR)^2)
with zR = pi w0^2 / lambda0; w is bounded below by w0 with equality exactly
at t = 3 zR, strictly decreasing left of 3 zR and strictly increasing right
of it, so the analytic focus sits at z = 3 zR. -/
theorem C3_waist_curve :
    (∀ t : ℝ, w t = w0 * Real.sqrt (1 + ((t - 3 * zR) / zR) ^ 2))
    ∧ zR = Real.pi * w0 ^ 2 / lambda0
    ∧ (∀ t : ℝ, w0 ≤ w t)
    ∧ (∀ t : ℝ, w t = w0 ↔ t = 3 * zR)
    ∧ (∀ a b : ℝ, a < b → b ≤ 3 * zR → w b < w a)
    ∧ (∀ a b : ℝ, 3 * zR ≤ a → a < b → w a < w b) := by
  refine ⟨w_formula, rfl, w0_le_w, w_eq_iff, ?_, ?_⟩
  · intro a b hab hb
    apply w_lt_w
    rw [zf_eq]
    nlinarith [mul_pos (sub_pos.mpr hab) (show (0 : ℝ) < 2 * (3 * zR) - a - b by nlinarith)]
  · intro a b ha hab
    apply w_lt_w
    rw [zf_eq]
    nlinarith [mul_pos (sub_pos.mpr hab) (show (0 : ℝ) < a + b - 2 * (3 * zR) by nlinarith)]

/-- C3 witness: concrete instances of the strict monotonicity on either
side of the focus. -/
theorem C3_waist_curve_witness : w zR < w 0 ∧ w (4 * zR) < w (5 * zR) :=
  ⟨C3_waist_curve.2.2.2.2.1 0 zR zR_pos (by nlinarith [zR_pos]),
   C3_waist_curve.2.2.2.2.2 (4 * zR) (5 * zR) (by nlinarith [zR_pos])
     (by nlinarith [zR_pos])⟩

/-- C4 (amended): with the masks applied in the order of the source, every
thresholded column is the exact binary indicator of intensity strictly
above e^(-2) times the column maximum (entries equal to the threshold map
to 0), and every entry is 0 or 1. -/
theorem C4_thresh_binary :
    ∀ col : List ℂ,
      threshColumn (intensityList col) =
        (intensityList col).map
          (fun v => if np_max (intensityList col) * Real.exp (-2) < v then 1 else 0)
      ∧ ∀ i : ℕ,
          (threshColumn (intensityList col)).getD i 0 = 0 ∨
          (threshColumn (intensityList col)).getD i 0 = 1 := by
  intro col
  refine ⟨threshColumn_eq col, ?_⟩
  intro i
  rw [threshColumn_eq col]
  exact indicator_getD _ _ i

/-- C4 counterexample: the result is not independent of the order of the
two masking assignments; on a column of intensities [9, 0] the maximum is
at least e^2, so the swapped order zeroes the entry the source order sets
to 1. -/
theorem C4_order_counterexample :
    threshColumnSwapped (intensityList [((3 : ℝ) : ℂ), ((0 : ℝ) : ℂ)]) ≠
      threshColumn (intensityList [((3 : ℝ) : ℂ), ((0 : ℝ) : ℂ)]) := by
  have hIl : intensityList [((3 : ℝ) : ℂ), ((0 : ℝ) : ℂ)] = [9, 0] := by
    simp [intensityList, Complex.abs_ofReal]
    norm_num
  have hmax : np_max ([9, 0] : List ℝ) = 9 := by
    simp [np_max]
  have hc9 : 9 * Real.exp (-2) < 9 := nine_exp_neg_two_lt_nine
  have hc1 : (1 : ℝ) ≤ 9 * Real.exp (-2) := one_le_nine_exp_neg_two
  have hc0 : (0 : ℝ) ≤ 9 * Real.exp (-2) := by positivity
  rw [hIl]
  unfold threshColumnSwapped threshColumn
  rw [hmax]
  simp only [maskLe, maskGt, List.map]
  rw [if_neg (not_le.mpr hc9), if_pos hc0, if_pos hc9, if_neg (not_lt.mpr hc0),
    if_pos hc1, if_pos hc0]
  intro h
  have := List.head_eq_of_cons_eq h
  norm_num at this

/-- C5: the script is three phases in sequence, setup then one propagation
call then analysis, with statement lines increasing, exactly one statement
invoking the external propagation engine, and that statement the only one
of the propagation phase. -/
theorem C5_three_phases :
    (orderedBy (fun a b => Nat.ble (phaseIdx a.phase) (phaseIdx b.phase)) scriptStmts) = true
    ∧ (orderedBy (fun a b => Nat.blt a.line b.line) scriptStmts) = true
    ∧ (scriptStmts.filter fun st => st.callsEngine).length = 1
    ∧ (scriptStmts.filter fun st => phaseIdx st.phase == 1).length = 1
    ∧ (scriptStmts.filter fun st => phaseIdx st.phase == 0).length ≠ 0
    ∧ (scriptStmts.filter fun st => phaseIdx st.phase == 2).length ≠ 0
    ∧ (scriptStmts.all fun st => !st.callsEngine || (phaseIdx st.phase == 1)) = true := by
  decide

/-- C6: none of the script code after the propagate_in_z call modifies the
Field array: the analysis statements read it or operate on copies, so the
field component of the analysis state is unchanged. -/
theorem C6_field_unchanged :
    ∀ st : AnalysisState, (runAnalysis st).field = st.field := by
  have hloop : ∀ (l : List ℕ) (s : AnalysisState),
      (l.foldl threshStep s).field = s.field := by
    intro l
    induction l with
    | nil => intro s; rfl
    | cons a r ih =>
      intro s
      rw [List.foldl_cons, ih]
      rfl
  intro st
  simp only [runAnalysis, intensityStep, focalStep, oscStep, threshLoop]
  exact hloop (List.range nz) st

/-- C7: every statement of the script is a plain statement with no
exception handler, and a plain sequence propagates the first failure of
any operation unhandled to the caller. -/
theorem C7_no_handlers :
    ∀ (S E : Type),
      (∀ ops : ℕ → S → Except E S,
        ((scriptProgram ops).all fun st => isPlainStmt st) = true)
      ∧ ∀ (ops1 : List (S → Except E S)) (f : S → Except E S)
          (ops2 : List (S → Except E S)) (s s2 : S) (e : E),
          runScript (scriptOf ops1) s = Except.ok s2 →
          f s2 = Except.error e →
          runScript (scriptOf (ops1 ++ f :: ops2)) s = Except.error e := by
  intro S E
  constructor
  · intro ops
    simp [scriptProgram, scriptOf, List.all_map, isPlainStmt, List.all_eq_true]
  · intro ops1
    induction ops1 with
    | nil =>
      intro f ops2 s s2 e h1 h2
      simp only [scriptOf, List.map, runScript] at h1
      cases h1
      simp only [List.nil_append, scriptOf, List.map, runScript, runStmt, h2]
    | cons g rest ih =>
      intro f ops2 s s2 e h1 h2
      simp only [scriptOf, List.map, runScript, runStmt, List.cons_append] at h1 ⊢
      cases hg : g s with
      | error e2 =>
        rw [hg] at h1
        simp at h1
      | ok s3 =>
        rw [hg] at h1
        exact ih f ops2 s3 s2 e h1 h2

/-- C7 witness: a two-statement instance in which the second operation
fails and the failure propagates to the result. -/
theorem C7_no_handlers_witness :
    runScript (scriptOf (([fun s => Except.ok (s + 1)] : List (ℕ → Except ℕ ℕ)) ++
      (fun _ => Except.error 7) :: [])) 0 = Except.error 7 :=
  (C7_no_handlers ℕ ℕ).2 [fun s => Except.ok (s + 1)] (fun _ => Except.error 7)
    [] 0 1 7 rfl rfl

/-- C8: the transverse grid has spacing res * n_pts / (n_pts - 1), which is
(512/511) micrometres and not res; it is antisymmetric, contains no exact
zero, and the centre index mid = 256 sits half a pixel off the axis at
res * n_pts / (2 (n_pts - 1)) > 0. -/
theorem C8_transverse_grid :
    (∀ i : Fin 511, x (i.val + 1) - x i.val = res * (n_pts : ℝ) / ((n_pts : ℝ) - 1))
    ∧ res * (n_pts : ℝ) / ((n_pts : ℝ) - 1) = (512 / 511) * um
    ∧ res * (n_pts : ℝ) / ((n_pts : ℝ) - 1) ≠ res
    ∧ (∀ i : Fin n_pts, x i.val = -x (n_pts - 1 - i.val))
    ∧ (∀ i : Fin n_pts, x i.val ≠ 0)
    ∧ mid = 256
    ∧ x mid = res * (n_pts : ℝ) / (2 * ((n_pts : ℝ) - 1))
    ∧ 0 < x mid := by
  have hmid : mid = 256 := by norm_num [mid, n_pts]
  refine ⟨?_, ?_, ?_, ?_, ?_, hmid, ?_, ?_⟩
  · intro i
    rw [x_eq, x_eq]
    unfold res n_pts
    push_cast
    ring
  · unfold res n_pts
    push_cast
    ring
  · unfold res n_pts
    norm_num [um]
  · intro i
    have hi : i.val ≤ 511 := Nat.lt_succ_iff.mp i.isLt
    rw [x_eq, x_eq, show n_pts - 1 - i.val = 511 - i.val from by norm_num [n_pts],
      Nat.cast_sub hi]
    push_cast
    ring
  · intro i h
    rw [x_eq] at h
    have hum : ((256 : ℝ) / 511) * um ≠ 0 := by norm_num [um]
    have h2 : (i.val : ℝ) * 2 - 511 = 0 := by
      rcases mul_eq_zero.mp h with h2 | h2
      · exact h2
      · exact absurd h2 hum
    have h3 : ((i.val * 2 : ℕ) : ℝ) = 511 := by push_cast; linarith
    have h4 : i.val * 2 = 511 := by exact_mod_cast h3
    omega
  · rw [hmid, x_eq]
    unfold res n_pts
    push_cast
    ring_nf
  · rw [hmid, x_eq]
    norm_num [um]

/-- C9: the focal plane zf = 3 zR is not a grid point of z; it lies exactly
midway between z 255 and z 256; np.argmin picks the first minimiser, index
255, whose distance from the true focus is 3 zR / 511. -/
theorem C9_focal_index :
    (∀ i : Fin nz, z i.val ≠ zf)
    ∧ zf = (z 255 + z 256) / 2
    ∧ focalIdx = 255
    ∧ |z focalIdx - zf| = 3 * zR / 511 := by
  refine ⟨?_, ?_, focalIdx_eq, ?_⟩
  · intro i h
    rw [z_eq, zf_eq] at h
    have h2 : ((i.val : ℝ) * 6) * zR = 1533 * zR := by
      field_simp at h
      linarith
    have h3 : (i.val : ℝ) * 6 = 1533 := mul_right_cancel₀ zR_pos.ne' h2
    have h4 : ((i.val * 6 : ℕ) : ℝ) = 1533 := by push_cast; linarith
    have h5 : i.val * 6 = 1533 := by exact_mod_cast h4
    omega
  · rw [z_eq, z_eq, zf_eq]
    push_cast
    ring
  · rw [focalIdx_eq, z_eq, zf_eq]
    rw [show (255 : ℕ) * (6 * zR) / 511 - 3 * zR = -(3 * zR / 511) from by push_cast; ring]
    rw [abs_neg, abs_of_nonneg (div_nonneg (by nlinarith [zR_pos]) (by norm_num))]

/-- C10: the phase factor has unit modulus, so applying the phase profile
preserves the amplitude pointwise, and the constant Gouy term changes only
a global phase: the intensity with and without it is identical at every
point. -/
theorem C10_phase_preserves_amplitude :
    ∀ X Y : ℝ,
      Complex.abs (inputBeam X Y) = |make_inputBeam X Y|
      ∧ Complex.abs (inputBeam X Y) ^ 2 = Complex.abs (inputBeam_noGuoy X Y) ^ 2 := by
  intro X Y
  refine ⟨abs_inputBeam X Y, ?_⟩
  rw [abs_inputBeam, abs_inputBeam_noGuoy]

end LAPPLAC
